import Mathlib

/-
Shallow embedding of the ipv4opt package (IPv4 option parser).  The source
of authority is the current version of the package: the option types, the
per-kind decoders parseSecurity, parseRecordRoute, parseStreamID,
parseTimeStamp (with getStampsTSOnly and getStamps), parseNOOP,
parseEOOList, and the walker Parse with its dispatch table.

Bytes are modelled as natural numbers below 256 in a list.  Go slice
indexing is partial: an out-of-range index is a runtime panic, modelled by
a dedicated outcome.  The walker loop of Parse can fail to terminate (the
cursor advances by the decoded option length, which can be zero), so the
loop is embedded with explicit fuel and a dedicated divergence outcome.
-/

set_option maxHeartbeats 1000000

/-- Errors of the package: the three package-level error values plus the
ad hoc errors built inside the decoders. -/
inductive PErr where
  | optionDataTooLarge
  | optionType
  | incorrectRRLength
  | securityDataTooShort
  | streamIDNotEnoughData
  | noDataNoOp
  | noDataEOOList
deriving DecidableEq

/-- Outcome of running a piece of the Go code: a runtime panic
(out-of-range slice index), divergence (the fuel of the loop embedding ran
out), an error return, or a normal return. -/
inductive GoRes (α : Type) where
  | panic
  | diverge
  | error (e : PErr)
  | ok (a : α)
deriving DecidableEq

/-- Sequencing of Go computations: panics, divergence and error returns
propagate. -/
def GoRes.bind {α β : Type} : GoRes α → (α → GoRes β) → GoRes β
  | .panic, _ => .panic
  | .diverge, _ => .diverge
  | .error e, _ => .error e
  | .ok a, f => f a

@[simp] theorem GoRes.bind_ok {α β : Type} (a : α) (f : α → GoRes β) :
    GoRes.bind (.ok a) f = f a := rfl

@[simp] theorem GoRes.bind_panic {α β : Type} (f : α → GoRes β) :
    GoRes.bind .panic f = .panic := rfl

@[simp] theorem GoRes.bind_diverge {α β : Type} (f : α → GoRes β) :
    GoRes.bind .diverge f = .diverge := rfl

@[simp] theorem GoRes.bind_error {α β : Type} (e : PErr) (f : α → GoRes β) :
    GoRes.bind (.error e) f = .error e := rfl

/-- Go slice indexing: in range yields the element, out of range panics. -/
def idx (xs : List Nat) (i : Nat) : GoRes Nat :=
  match xs[i]? with
  | some v => .ok v
  | none => .panic

/-- Go make-then-copy: a buffer of n bytes holding the first n bytes of
src, zero padded when src is shorter than n. -/
def goCopy (n : Nat) (src : List Nat) : List Nat :=
  src.take n ++ List.replicate (n - src.length) 0

/-- The shared envelope of every decoded option: the otype field, the
length field (a Go int, always assigned a nonnegative value), and the
copied record bytes. -/
structure OptionBase where
  otype : Nat
  length : Nat
  data : List Nat
deriving DecidableEq

/-- A timestamp and address pair from a timestamp option. -/
structure Stamp where
  time : Nat
  addr : Nat
deriving DecidableEq

/-- The decoded option values Sec, RR, StreamID, TS, NoOp and EOOList of
the package, as a closed sum. -/
inductive IPOpt where
  | sec (o : OptionBase) (level compartment restriction tcc : Nat)
  | rr (o : OptionBase) (pointer : Nat) (routes : List Nat)
  | streamID (o : OptionBase) (id : Nat)
  | ts (o : OptionBase) (pointer flags over : Nat) (stamps : List Stamp)
  | noop (o : OptionBase)
  | eool (o : OptionBase)
deriving DecidableEq

instance : Inhabited IPOpt := ⟨.noop ⟨1, 1, []⟩⟩

/-- The Length method of the option interface. -/
def IPOpt.lengthVal : IPOpt → Nat
  | .sec o _ _ _ _ => o.length
  | .rr o _ _ => o.length
  | .streamID o _ => o.length
  | .ts o _ _ _ _ => o.length
  | .noop o => o.length
  | .eool o => o.length

/-- The Type method of the option interface (the otype field). -/
def IPOpt.otypeVal : IPOpt → Nat
  | .sec o _ _ _ _ => o.otype
  | .rr o _ _ => o.otype
  | .streamID o _ => o.otype
  | .ts o _ _ _ _ => o.otype
  | .noop o => o.otype
  | .eool o => o.otype

/-- Embedding of parseSecurity: a slice shorter than 11 bytes is an
error; otherwise an 11 byte record is copied and the fields extracted
from fixed offsets of the input slice.  The TCC high byte is read from
octet 6, exactly as the source line so.TCC |= SecurityTCC(data[6]) << 16
does. -/
def parseSecurity (data : List Nat) : GoRes IPOpt :=
  if data.length < 11 then .error .securityDataTooShort
  else
    (idx data 2).bind fun s2 =>
    (idx data 3).bind fun s3 =>
    (idx data 4).bind fun s4 =>
    (idx data 5).bind fun s5 =>
    (idx data 6).bind fun s6 =>
    (idx data 7).bind fun s7 =>
    (idx data 9).bind fun s9 =>
    (idx data 10).bind fun s10 =>
    .ok (.sec ⟨130, 11, goCopy 11 data⟩
      (s2 <<< 8 ||| s3) (s4 <<< 8 ||| s5) (s6 <<< 8 ||| s7)
      (s6 <<< 16 ||| s9 <<< 8 ||| s10))

/-- The route reading loop of parseRecordRoute: for i starting at 3 and
stepping by 4 while i is below the declared length, read a big-endian
32-bit route from the copied buffer.  The recursion is driven by the
iteration count of the loop, which for the loop bound L is L / 4. -/
def rrIter (buf : List Nat) : Nat → Nat → GoRes (List Nat)
  | _, 0 => .ok []
  | i, n+1 =>
    (idx buf i).bind fun a =>
    (idx buf (i+1)).bind fun b =>
    (idx buf (i+2)).bind fun c =>
    (idx buf (i+3)).bind fun d =>
    (rrIter buf (i+4) n).bind fun rest =>
    .ok ((a <<< 24 ||| b <<< 16 ||| c <<< 8 ||| d) :: rest)

/-- Embedding of parseRecordRoute: otype from octet 0, declared length L
from octet 1, an L byte buffer copied (zero padded when the slice is
shorter than L), pointer from buffer octet 2, then the multiple-of-4
check on L - 3 over the integers, then the route loop over the buffer.
The source performs no check of the slice length against L. -/
def parseRecordRoute (data : List Nat) : GoRes IPOpt :=
  (idx data 0).bind fun t =>
  (idx data 1).bind fun L =>
  (idx (goCopy L data) 2).bind fun p =>
  if ((L : Int) - 3) % 4 ≠ 0 then .error .incorrectRRLength
  else
    (rrIter (goCopy L data) 3 (L / 4)).bind fun rs =>
    .ok (.rr ⟨t, L, goCopy L data⟩ p rs)

/-- Embedding of parseStreamID: otype from octet 0, fixed length 4, a 4
byte buffer copied, then the slice length check, then the big-endian id
from octets 2 and 3 of the input slice.  The declared length octet of
the record is never read. -/
def parseStreamID (data : List Nat) : GoRes IPOpt :=
  (idx data 0).bind fun t =>
  if data.length < 4 then .error .streamIDNotEnoughData
  else
    (idx data 2).bind fun a =>
    (idx data 3).bind fun b =>
    .ok (.streamID ⟨t, 4, goCopy 4 data⟩ (a <<< 8 ||| b))

/-- The stamp loop of getStampsTSOnly: for i starting at 0 and stepping
by 4 while i is below the length argument, read a big-endian 32-bit time
from the slice.  The recursion is driven by the iteration count of the
loop. -/
def tsOnlyIter (data : List Nat) : Nat → Nat → GoRes (List Stamp)
  | _, 0 => .ok []
  | i, n+1 =>
    (idx data i).bind fun a =>
    (idx data (i+1)).bind fun b =>
    (idx data (i+2)).bind fun c =>
    (idx data (i+3)).bind fun d =>
    (tsOnlyIter data (i+4) n).bind fun rest =>
    .ok (⟨a <<< 24 ||| b <<< 16 ||| c <<< 8 ||| d, 0⟩ :: rest)

/-- Embedding of getStampsTSOnly: the length argument is a Go int and can
be negative; the loop with step 4 runs ceiling of length over 4 times
(zero times for nonpositive length). -/
def getStampsTSOnly (data : List Nat) (length : Int) : GoRes (List Stamp) :=
  tsOnlyIter data 0 ((length + 3) / 4).toNat

/-- The stamp loop of getStamps: step 8, address from bytes i..i+3 and
time from bytes i+4..i+7, both big-endian. -/
def tsAddrIter (data : List Nat) : Nat → Nat → GoRes (List Stamp)
  | _, 0 => .ok []
  | i, n+1 =>
    (idx data i).bind fun a0 =>
    (idx data (i+1)).bind fun a1 =>
    (idx data (i+2)).bind fun a2 =>
    (idx data (i+3)).bind fun a3 =>
    (idx data (i+4)).bind fun t0 =>
    (idx data (i+5)).bind fun t1 =>
    (idx data (i+6)).bind fun t2 =>
    (idx data (i+7)).bind fun t3 =>
    (tsAddrIter data (i+8) n).bind fun rest =>
    .ok (⟨t0 <<< 24 ||| t1 <<< 16 ||| t2 <<< 8 ||| t3,
          a0 <<< 24 ||| a1 <<< 16 ||| a2 <<< 8 ||| a3⟩ :: rest)

/-- Embedding of getStamps: the loop with step 8 runs ceiling of length
over 8 times (zero times for nonpositive length). -/
def getStamps (data : List Nat) (length : Int) : GoRes (List Stamp) :=
  tsAddrIter data 0 ((length + 7) / 8).toNat

/-- Embedding of parseTimeStamp: otype from octet 0, declared length L
from octet 1, pointer from octet 2 of the input slice, overflow and flag
from the nibbles of octet 3, then the flag switch over the stamp
sub-decoders on the slice from octet 4 with length argument L - 4 (a Go
int, negative when L is below 4).  An unknown flag leaves the stamps
empty.  The source performs no check of the slice length against L and no
multiple-of-4 or multiple-of-8 validation of the payload. -/
def parseTimeStamp (data : List Nat) : GoRes IPOpt :=
  (idx data 0).bind fun t =>
  (idx data 1).bind fun L =>
  (idx data 2).bind fun p =>
  (idx data 3).bind fun b3 =>
  (if b3 &&& 15 = 0 then getStampsTSOnly (data.drop 4) ((L : Int) - 4)
   else if b3 &&& 15 = 1 ∨ b3 &&& 15 = 3 then getStamps (data.drop 4) ((L : Int) - 4)
   else .ok []).bind fun stamps =>
  .ok (.ts ⟨t, L, goCopy L data⟩ p (b3 &&& 15) (b3 >>> 4) stamps)

/-- Embedding of parseNOOP: a one byte record with otype NoOperation. -/
def parseNOOP (data : List Nat) : GoRes IPOpt :=
  if data.length < 1 then .error .noDataNoOp
  else .ok (.noop ⟨1, 1, goCopy 1 data⟩)

/-- Embedding of parseEOOList.  The source sets the otype field to
NoOperation (value 1), not EndOfOptionList, mirroring the line
opt.option.otype = NoOperation. -/
def parseEOOList (data : List Nat) : GoRes IPOpt :=
  if data.length < 1 then .error .noDataEOOList
  else .ok (.eool ⟨1, 1, goCopy 1 data⟩)

/-- One step of the walker: getOptionType on the byte at the cursor
followed by dispatch through the parsers table on the tail slice.  A type
octet outside the eight known codes is the invalid option type error. -/
def decodeRecord (opts : List Nat) (i : Nat) : GoRes IPOpt :=
  match opts.getD i 0 with
  | 0 => parseEOOList (opts.drop i)
  | 1 => parseNOOP (opts.drop i)
  | 130 => parseSecurity (opts.drop i)
  | 131 => parseRecordRoute (opts.drop i)
  | 137 => parseRecordRoute (opts.drop i)
  | 7 => parseRecordRoute (opts.drop i)
  | 136 => parseStreamID (opts.drop i)
  | 68 => parseTimeStamp (opts.drop i)
  | _ => .error .optionType

/-- Appending a decoded option in front of the rest of the walk, with
panics, divergence and errors of the rest propagated. -/
def stepCont (o : IPOpt) : GoRes (List IPOpt) → GoRes (List IPOpt)
  | .ok os => .ok (o :: os)
  | .panic => .panic
  | .diverge => .diverge
  | .error e => .error e

@[simp] theorem stepCont_ok (o : IPOpt) (os : List IPOpt) :
    stepCont o (.ok os) = .ok (o :: os) := rfl

@[simp] theorem stepCont_panic (o : IPOpt) : stepCont o .panic = .panic := rfl

@[simp] theorem stepCont_diverge (o : IPOpt) : stepCont o .diverge = .diverge := rfl

@[simp] theorem stepCont_error (o : IPOpt) (e : PErr) :
    stepCont o (.error e) = .error e := rfl

/-- The walker loop of Parse: while the cursor i is below the input
length, decode the record at i and advance by the decoded option length.
The cursor advance can be zero, so the loop carries fuel. -/
def parseLoop (opts : List Nat) : Nat → Nat → GoRes (List IPOpt)
  | 0, _ => .diverge
  | fuel+1, i =>
    if i < opts.length then
      (decodeRecord opts i).bind fun o =>
        stepCont o (parseLoop opts fuel (i + o.lengthVal))
    else .ok []

/-- MaxOptionsLen of the package. -/
def MaxOptionsLen : Nat := 40

/-- Embedding of Parse: inputs longer than MaxOptionsLen are the data too
large error, an empty input is an empty sequence, otherwise the walker
loop runs from cursor 0. -/
def Parse (fuel : Nat) (opts : List Nat) : GoRes (List IPOpt) :=
  if opts.length > MaxOptionsLen then .error .optionDataTooLarge
  else if opts.length = 0 then .ok []
  else parseLoop opts fuel 0

/-- Sum of the Length fields of a decoded option sequence: the total
number of bytes the walker attributed to the records. -/
def optionsTotalLen (os : List IPOpt) : Nat := (os.map IPOpt.lengthVal).sum

/-- In-range slice indexing yields the element. -/
theorem idx_ok {xs : List Nat} {i : Nat} (h : i < xs.length) :
    idx xs i = .ok (xs.getD i 0) := by
  simp [idx, List.getElem?_eq_getElem h, List.getD_eq_getElem?_getD]

/-- A copied buffer has exactly the requested size. -/
theorem goCopy_length (n : Nat) (src : List Nat) : (goCopy n src).length = n := by
  simp [goCopy]
  omega

/-- Claim C1 (code behavior at the failing input): on the one byte input
consisting of the 0 type octet, Parse returns an option whose type field
is NoOperation (value 1), not EndOfList, because parseEOOList sets the
otype field to NoOperation; and on input 0 followed by the unknown type
octet 2, Parse does not stop at the 0 octet: it keeps walking, hits the
trailing byte and fails with the invalid option type error instead of
succeeding with the trailing byte discarded. -/
theorem c1_end_of_list_not_stopped :
    Parse 64 [0] = .ok [.eool ⟨1, 1, [0]⟩] ∧
    (IPOpt.eool ⟨1, 1, [0]⟩).otypeVal = 1 ∧
    Parse 64 [0, 2] = .error .optionType := by decide

/-- Claim C2 (counterexample): Parse succeeds on the 3 byte input
7, 7, 4 (a RecordRoute record declaring length 7), yet the sum of the
byte counts attributed to the records is 7, not the input length 3: the
record extends past the end of the input, the 4 missing bytes being read
as zeros, so the consumed byte counts do not account for the input length
exactly. -/
theorem c2_counterexample :
    Parse 64 [7, 7, 4] = .ok [.rr ⟨7, 7, [7, 7, 4, 0, 0, 0, 0]⟩ 4 [0]] ∧
    optionsTotalLen [.rr ⟨7, 7, [7, 7, 4, 0, 0, 0, 0]⟩ 4 [0]] ≠
      ([7, 7, 4] : List Nat).length := by decide

/-- Claim C3 (code behavior at the failing input): the one byte input
consisting of the RecordRoute type octet 7 has length at most 40, yet
Parse performs an out-of-bounds access: parseRecordRoute reads the
declared length octet data[1] of a one byte slice, a runtime panic, not
an error return. -/
theorem c3_out_of_bounds :
    ([7] : List Nat).length ≤ MaxOptionsLen ∧ Parse 64 [7] = .panic := by decide

/-- Claim C5 (code behavior at the failing input): a Timestamp record
with flag TS_ONLY and payload length 5 (declared length 9, exactly 9
bytes of input) is not rejected with a TSLengthIncorrect error - no such
error exists in the code and no multiple-of-4 validation is performed;
instead the stamp loop reads past the end of the slice, a runtime
panic. -/
theorem c5_ts_only_payload5_panics :
    Parse 64 [68, 9, 1, 0, 1, 2, 3, 4, 5] = .panic := by decide

/-- Claim C6 (counterexample): on the slice 7, 7, 4, whose length 3 is
strictly less than the declared length octet 7, the route record decoder
does not return a NotEnoughData error: it succeeds, zero padding the 4
missing bytes and decoding one all-zero route. -/
theorem c6_counterexample :
    parseRecordRoute [7, 7, 4] = .ok (.rr ⟨7, 7, [7, 7, 4, 0, 0, 0, 0]⟩ 4 [0]) ∧
    ([7, 7, 4] : List Nat).length < 7 := by decide

/-- Claim C7 (code behavior at the failing input): on an accepted
Security record, level, compartment and restriction come big-endian from
octets 2..7 as claimed, but the transmission control code does not come
from octets 8..10: the source reads its high byte from octet 6.  On the
record below (octet 8 is 9, octet 6 is 0) the decoded TCC is 1029, where
the claimed big-endian value of octets 8..10 is 590853. -/
theorem c7_tcc_wrong_octet :
    parseSecurity [130, 11, 0, 1, 0, 2, 0, 3, 9, 4, 5] =
      .ok (.sec ⟨130, 11, [130, 11, 0, 1, 0, 2, 0, 3, 9, 4, 5]⟩ 1 2 3 1029) ∧
    (1029 : Nat) ≠ 9 <<< 16 ||| 4 <<< 8 ||| 5 := by decide

/-- Claim C8 (counterexample): a Security record whose declared length
octet is 12, with exactly 11 bytes present, is not rejected with an
InvalidLength error: parseSecurity never reads the declared length octet
and succeeds. -/
theorem c8_counterexample :
    parseSecurity [130, 12, 0, 1, 0, 2, 0, 3, 0, 4, 5] =
      .ok (.sec ⟨130, 11, [130, 12, 0, 1, 0, 2, 0, 3, 0, 4, 5]⟩ 1 2 3 1029) ∧
    ([130, 12, 0, 1, 0, 2, 0, 3, 0, 4, 5] : List Nat).getD 1 0 ≠ 11 := by decide

/-- Claim C9 (counterexample): a StreamID record whose declared length
octet is 5, not 4, is not rejected with a StreamIDLengthIncorrect error:
parseStreamID never reads the declared length octet and succeeds with
the big-endian id of octets 2..3. -/
theorem c9_counterexample :
    parseStreamID [136, 5, 7, 8] = .ok (.streamID ⟨136, 4, [136, 5, 7, 8]⟩ 1800) ∧
    ([136, 5, 7, 8] : List Nat).getD 1 0 ≠ 4 := by decide

/-- The 40 byte record route input of the repository test suite: a
RecordRoute record with declared length 39 and pointer octet 40, followed
by a trailing 0 octet. -/
def rrTest : List Nat :=
  [7, 39, 40, 137, 165, 1, 25, 66, 109, 38,
   50, 66, 109, 52, 166, 66, 109, 52, 165,
   198, 32, 160, 59, 109, 105, 96, 13, 109,
   105, 102, 45, 10, 32, 67, 205, 10, 32, 67,
   218, 0]

/-- Claim C10: Parse succeeds on the 40 byte record route input, and the
decoded route record option has type RecordRoute (7), pointer 40 and
exactly 9 routes, the first being the 32-bit big-endian value of the
bytes 137, 165, 1, 25. -/
theorem c10_record_route_scenario :
    Parse 64 rrTest = .ok
      [.rr ⟨7, 39,
         [7, 39, 40, 137, 165, 1, 25, 66, 109, 38,
          50, 66, 109, 52, 166, 66, 109, 52, 165,
          198, 32, 160, 59, 109, 105, 96, 13, 109,
          105, 102, 45, 10, 32, 67, 205, 10, 32, 67, 218]⟩ 40
         [2309292313, 1114449458, 1114453158, 1114453157, 3324026939,
          1835622413, 1835623981, 169886669, 169886682],
       .eool ⟨1, 1, [0]⟩] ∧
    ([2309292313, 1114449458, 1114453158, 1114453157, 3324026939,
      1835622413, 1835623981, 169886669, 169886682] : List Nat).length = 9 ∧
    (2309292313 : Nat) = 137 <<< 24 ||| 165 <<< 16 ||| 1 <<< 8 ||| 25 := by decide

/-- On the input 68, 0, 0, 0 (a Timestamp record with declared length
octet 0) the walker loop re-parses the same record forever: the decoded
option length is 0, so the cursor never advances. -/
theorem parseLoop_ts_zero_diverges :
    ∀ fuel : Nat, parseLoop [68, 0, 0, 0] fuel 0 = .diverge := by
  intro fuel
  induction fuel with
  | zero => rfl
  | succ n ih =>
      have h : decodeRecord [68, 0, 0, 0] 0 = .ok (.ts ⟨68, 0, []⟩ 0 0 0 []) := by
        decide
      have hlen : (IPOpt.ts ⟨68, 0, []⟩ 0 0 0 []).lengthVal = 0 := rfl
      rw [parseLoop, if_pos (by decide), h, GoRes.bind_ok, hlen, Nat.add_zero, ih]
      rfl

/-- Claim C4: Parse does not terminate on every input of length at most
40.  On the input 68, 0, 0, 0, whose Timestamp record declares length 0,
the cursor advances by 0 on every iteration and the walker loops forever:
for every fuel the embedding diverges. -/
theorem c4_declared_length_zero_diverges :
    ∀ fuel : Nat, Parse fuel [68, 0, 0, 0] = .diverge := by
  intro fuel
  have h := parseLoop_ts_zero_diverges fuel
  simpa [Parse, MaxOptionsLen] using h

/-- Claim C8 (amended): the Security decoder never reads the declared
length octet.  Whenever at least 11 bytes are present it succeeds and
consumes exactly 11 bytes, whatever the declared length octet holds;
level, compartment and restriction come big-endian from octets 2..7 and
the TCC from octets 6, 9 and 10. -/
theorem c8_amended (data : List Nat) (h : 11 ≤ data.length) :
    parseSecurity data = .ok (.sec ⟨130, 11, goCopy 11 data⟩
      (data.getD 2 0 <<< 8 ||| data.getD 3 0)
      (data.getD 4 0 <<< 8 ||| data.getD 5 0)
      (data.getD 6 0 <<< 8 ||| data.getD 7 0)
      (data.getD 6 0 <<< 16 ||| data.getD 9 0 <<< 8 ||| data.getD 10 0)) := by
  unfold parseSecurity
  rw [if_neg (by omega), idx_ok (by omega), GoRes.bind_ok, idx_ok (by omega),
    GoRes.bind_ok, idx_ok (by omega), GoRes.bind_ok, idx_ok (by omega),
    GoRes.bind_ok, idx_ok (by omega), GoRes.bind_ok, idx_ok (by omega),
    GoRes.bind_ok, idx_ok (by omega), GoRes.bind_ok, idx_ok (by omega),
    GoRes.bind_ok]

/-- Claim C8 (witness): the amended statement applied to a record with
declared length octet 0 and 11 bytes present. -/
theorem c8_amended_witness :
    parseSecurity [130, 0, 0, 1, 0, 2, 0, 3, 0, 4, 5] =
      .ok (.sec ⟨130, 11, goCopy 11 [130, 0, 0, 1, 0, 2, 0, 3, 0, 4, 5]⟩
        (([130, 0, 0, 1, 0, 2, 0, 3, 0, 4, 5] : List Nat).getD 2 0 <<< 8 |||
          ([130, 0, 0, 1, 0, 2, 0, 3, 0, 4, 5] : List Nat).getD 3 0)
        (([130, 0, 0, 1, 0, 2, 0, 3, 0, 4, 5] : List Nat).getD 4 0 <<< 8 |||
          ([130, 0, 0, 1, 0, 2, 0, 3, 0, 4, 5] : List Nat).getD 5 0)
        (([130, 0, 0, 1, 0, 2, 0, 3, 0, 4, 5] : List Nat).getD 6 0 <<< 8 |||
          ([130, 0, 0, 1, 0, 2, 0, 3, 0, 4, 5] : List Nat).getD 7 0)
        (([130, 0, 0, 1, 0, 2, 0, 3, 0, 4, 5] : List Nat).getD 6 0 <<< 16 |||
          ([130, 0, 0, 1, 0, 2, 0, 3, 0, 4, 5] : List Nat).getD 9 0 <<< 8 |||
          ([130, 0, 0, 1, 0, 2, 0, 3, 0, 4, 5] : List Nat).getD 10 0)) :=
  c8_amended [130, 0, 0, 1, 0, 2, 0, 3, 0, 4, 5] (by decide)

/-- Claim C9 (amended): the stream identifier decoder never reads the
declared length octet, so no length check against 4 is performed.
Whenever at least 4 bytes are present it succeeds, whatever the declared
length octet holds, with the id equal to the big-endian 16-bit value of
octets 2..3, consuming exactly 4 bytes; with fewer than 4 bytes it
returns an error. -/
theorem c9_amended (data : List Nat) (h : 4 ≤ data.length) :
    parseStreamID data = .ok (.streamID ⟨data.getD 0 0, 4, goCopy 4 data⟩
      (data.getD 2 0 <<< 8 ||| data.getD 3 0)) := by
  unfold parseStreamID
  rw [idx_ok (by omega), GoRes.bind_ok, if_neg (by omega), idx_ok (by omega),
    GoRes.bind_ok, idx_ok (by omega), GoRes.bind_ok]

/-- Claim C9 (witness): the amended statement applied to a record with
declared length octet 9 and 4 bytes present. -/
theorem c9_amended_witness :
    parseStreamID [136, 9, 1, 2] =
      .ok (.streamID ⟨([136, 9, 1, 2] : List Nat).getD 0 0, 4, goCopy 4 [136, 9, 1, 2]⟩
        (([136, 9, 1, 2] : List Nat).getD 2 0 <<< 8 |||
          ([136, 9, 1, 2] : List Nat).getD 3 0)) :=
  c9_amended [136, 9, 1, 2] (by decide)

/-- The route loop succeeds whenever all its reads stay inside the
buffer, producing one route per iteration. -/
theorem rrIter_ok (buf : List Nat) :
    ∀ (n i : Nat), i + 4 * n ≤ buf.length →
      ∃ rs : List Nat, rrIter buf i n = .ok rs ∧ rs.length = n := by
  intro n
  induction n with
  | zero => exact fun i _ => ⟨[], rfl, rfl⟩
  | succ m ih =>
      intro i h
      obtain ⟨rs, hrs, hlen⟩ := ih (i + 4) (by omega)
      refine ⟨(buf.getD i 0 <<< 24 ||| buf.getD (i+1) 0 <<< 16 |||
        buf.getD (i+2) 0 <<< 8 ||| buf.getD (i+3) 0) :: rs, ?_, by simp [hlen]⟩
      rw [rrIter, idx_ok (by omega), GoRes.bind_ok, idx_ok (by omega), GoRes.bind_ok,
        idx_ok (by omega), GoRes.bind_ok, idx_ok (by omega), GoRes.bind_ok, hrs,
        GoRes.bind_ok]

/-- Claim C6 (amended): the route record decoder performs no check of
the slice length against the declared length octet and has no
NotEnoughData error.  Whenever the declared length L is at least 3 and
L - 3 is a multiple of 4, the decoder succeeds, zero padding any bytes
of the record missing from the slice, with (L - 3) / 4 routes and
consuming L bytes. -/
theorem c6_amended (data : List Nat) (L : Nat) (h2 : 2 ≤ data.length)
    (hL : data.getD 1 0 = L) (h3 : 3 ≤ L) (hm : (L - 3) % 4 = 0) :
    ∃ rs : List Nat, parseRecordRoute data =
      .ok (.rr ⟨data.getD 0 0, L, goCopy L data⟩ ((goCopy L data).getD 2 0) rs) ∧
      rs.length = (L - 3) / 4 := by
  have hbl : (goCopy L data).length = L := goCopy_length L data
  obtain ⟨rs, hrs, hlen⟩ := rrIter_ok (goCopy L data) (L / 4) 3 (by omega)
  refine ⟨rs, ?_, by omega⟩
  unfold parseRecordRoute
  rw [idx_ok (by omega), GoRes.bind_ok, idx_ok (by omega), GoRes.bind_ok, hL,
    idx_ok (by omega), GoRes.bind_ok, if_neg (by omega), hrs, GoRes.bind_ok]

/-- Claim C6 (witness): the amended statement applied to the slice
7, 7, 4, shorter than its declared length 7. -/
theorem c6_amended_witness :
    ∃ rs : List Nat, parseRecordRoute [7, 7, 4] =
      .ok (.rr ⟨([7, 7, 4] : List Nat).getD 0 0, 7, goCopy 7 [7, 7, 4]⟩
        ((goCopy 7 [7, 7, 4]).getD 2 0) rs) ∧
      rs.length = (7 - 3) / 4 :=
  c6_amended [7, 7, 4] 7 (by decide) (by decide) (by decide) (by decide)

/-- The record start positions of a successful walk: the cursor values at
which the walker decoded a record, computed by the same recursion as the
walker loop. -/
def startsLoop (opts : List Nat) : Nat → Nat → Option (List Nat)
  | 0, _ => none
  | fuel+1, i =>
    if i < opts.length then
      match decodeRecord opts i with
      | .ok o => Option.map (fun ss => i :: ss) (startsLoop opts fuel (i + o.lengthVal))
      | .panic => none
      | .diverge => none
      | .error _ => none
    else some []

/-- The record start positions of a successful Parse. -/
def parseStarts (fuel : Nat) (opts : List Nat) : Option (List Nat) :=
  if opts.length > MaxOptionsLen then none
  else if opts.length = 0 then some []
  else startsLoop opts fuel 0

/-- A record decoded to an option of length 0 pins the cursor: the walk
from that cursor can never return normally, whatever the fuel. -/
theorem parseLoop_no_zero_advance (opts : List Nat) (i : Nat) (o : IPOpt)
    (hi : i < opts.length) (hd : decodeRecord opts i = .ok o) (h0 : o.lengthVal = 0) :
    ∀ (fuel : Nat) (os : List IPOpt), parseLoop opts fuel i ≠ .ok os := by
  intro fuel
  induction fuel with
  | zero =>
      intro os h
      exact absurd h (by rw [parseLoop]; intro hc; cases hc)
  | succ n ih =>
      intro os h
      rw [parseLoop, if_pos hi, hd, GoRes.bind_ok, h0, Nat.add_zero] at h
      cases hin : parseLoop opts n i with
      | ok os2 => exact absurd hin (ih os2)
      | panic => rw [hin] at h; exact absurd h (by intro hc; cases hc)
      | diverge => rw [hin] at h; exact absurd h (by intro hc; cases hc)
      | error e => rw [hin] at h; exact absurd h (by intro hc; cases hc)

/-- Walk accounting: a normal return of the walker loop from cursor i
yields options whose record start positions exist, are strictly
increasing and at least i, correspond one to one and in order with the
returned options, and whose total attributed length reaches at least the
end of the input. -/
theorem parseLoop_accounting (opts : List Nat) :
    ∀ (fuel i : Nat) (os : List IPOpt), parseLoop opts fuel i = .ok os →
      opts.length ≤ i + optionsTotalLen os ∧
      ∃ ss : List Nat, startsLoop opts fuel i = some ss ∧
        List.Chain' (fun a b => a < b) ss ∧
        (∀ j ∈ ss, i ≤ j) ∧
        ss.length = os.length ∧
        ∀ k, k < ss.length → decodeRecord opts (ss.getD k 0) = .ok (os.getD k default) := by
  intro fuel
  induction fuel with
  | zero =>
      intro i os h
      exact absurd h (by rw [parseLoop]; intro hc; cases hc)
  | succ n ih =>
      intro i os h
      rw [parseLoop] at h
      by_cases hi : i < opts.length
      · rw [if_pos hi] at h
        cases hdec : decodeRecord opts i with
        | ok o =>
            rw [hdec, GoRes.bind_ok] at h
            cases hin : parseLoop opts n (i + o.lengthVal) with
            | ok os2 =>
                rw [hin, stepCont_ok] at h
                obtain rfl : (o :: os2 : List IPOpt) = os := by cases h; rfl
                obtain ⟨h1, ss2, hss2, hch, hge, hsl, hpt⟩ := ih (i + o.lengthVal) os2 hin
                have hpos : 0 < o.lengthVal := by
                  rcases Nat.eq_zero_or_pos o.lengthVal with h0 | hp
                  · rw [h0, Nat.add_zero] at hin
                    exact absurd hin (parseLoop_no_zero_advance opts i o hi hdec h0 n os2)
                  · exact hp
                refine ⟨?_, i :: ss2, ?_, ?_, ?_, ?_, ?_⟩
                · have : optionsTotalLen (o :: os2) = o.lengthVal + optionsTotalLen os2 := by
                    simp [optionsTotalLen]
                  omega
                · rw [startsLoop, if_pos hi, hdec]
                  simp [hss2]
                · rw [List.chain'_cons']
                  refine ⟨?_, hch⟩
                  intro b hb
                  cases ss2 with
                  | nil => cases hb
                  | cons a t =>
                      have hb2 : a = b := by simpa using hb
                      have ha := hge a (by simp)
                      omega
                · intro j hj
                  rcases List.mem_cons.mp hj with rfl | hj2
                  · omega
                  · have := hge j hj2
                    omega
                · simpa using hsl
                · intro k hk
                  cases k with
                  | zero => simpa using hdec
                  | succ m =>
                      have hm : m < ss2.length := by simpa using hk
                      simpa using hpt m hm
            | panic =>
                rw [hin, stepCont_panic] at h
                exact absurd h (by intro hc; cases hc)
            | diverge =>
                rw [hin, stepCont_diverge] at h
                exact absurd h (by intro hc; cases hc)
            | error e =>
                rw [hin, stepCont_error] at h
                exact absurd h (by intro hc; cases hc)
        | panic =>
            rw [hdec, GoRes.bind_panic] at h
            exact absurd h (by intro hc; cases hc)
        | diverge =>
            rw [hdec, GoRes.bind_diverge] at h
            exact absurd h (by intro hc; cases hc)
        | error e =>
            rw [hdec, GoRes.bind_error] at h
            exact absurd h (by intro hc; cases hc)
      · rw [if_neg hi] at h
        obtain rfl : ([] : List IPOpt) = os := by cases h; rfl
        refine ⟨?_, [], ?_, ?_, ?_, ?_, ?_⟩
        · simp only [optionsTotalLen, List.map_nil, List.sum_nil]
          omega
        · rw [startsLoop, if_neg hi]
        · exact List.chain'_nil
        · intro j hj
          cases hj
        · rfl
        · intro k hk
          simp at hk

/-- Claim C2 (amended): on success the decoded options appear in the
same order as their records in the input - the record start positions
exist, are strictly increasing, and the k-th returned option is the one
decoded at the k-th start - and the sum of the byte counts attributed to
the records is at least the input length.  It can exceed the input
length: the final record's declared length may extend past the end of
the input, the missing bytes being read as zeros; and since Parse does
not stop at a 0 octet there is no trailing discard. -/
theorem c2_amended (fuel : Nat) (opts : List Nat) (os : List IPOpt)
    (h : Parse fuel opts = .ok os) :
    opts.length ≤ optionsTotalLen os ∧
    ∃ ss : List Nat, parseStarts fuel opts = some ss ∧
      List.Chain' (fun a b => a < b) ss ∧
      ss.length = os.length ∧
      ∀ k, k < ss.length → decodeRecord opts (ss.getD k 0) = .ok (os.getD k default) := by
  unfold Parse at h
  by_cases h40 : opts.length > MaxOptionsLen
  · rw [if_pos h40] at h
    exact absurd h (by intro hc; cases hc)
  · rw [if_neg h40] at h
    by_cases h0 : opts.length = 0
    · rw [if_pos h0] at h
      obtain rfl : ([] : List IPOpt) = os := by cases h; rfl
      refine ⟨by simp [optionsTotalLen, h0], [], ?_, List.chain'_nil, rfl, ?_⟩
      · simp [parseStarts, h40, h0]
      · intro k hk
        simp at hk
    · rw [if_neg h0] at h
      obtain ⟨h1, ss, hss, hch, hge, hsl, hpt⟩ := parseLoop_accounting opts fuel 0 os h
      refine ⟨by simpa using h1, ss, ?_, hch, hsl, hpt⟩
      simp [parseStarts, h40, h0, hss]

/-- Claim C2 (witness): the amended statement applied to the one byte
NoOperation input, where Parse succeeds with one option of length 1. -/
theorem c2_amended_witness :
    ([1] : List Nat).length ≤ optionsTotalLen [.noop ⟨1, 1, [1]⟩] ∧
    ∃ ss : List Nat, parseStarts 2 [1] = some ss ∧
      List.Chain' (fun a b => a < b) ss ∧
      ss.length = ([(.noop ⟨1, 1, [1]⟩ : IPOpt)]).length ∧
      ∀ k, k < ss.length →
        decodeRecord [1] (ss.getD k 0) =
          .ok (([(.noop ⟨1, 1, [1]⟩ : IPOpt)]).getD k default) :=
  c2_amended 2 [1] [.noop ⟨1, 1, [1]⟩] (by decide)
